import Mathlib

/-!
# Verification of the retail dataset cleaning pipeline

Shallow embedding of `src/cleaning_file.py` (a pandas-based cleaning utility).
A pandas `DataFrame` is modelled as an ordered list of column names plus a
list of rows; each row is an association list from column names to cell
values.  Cell values are a tagged variant: strings, rational numbers
(pandas floats; no claim depends on float rounding), parsed dates, booleans
and the missing-value marker `na` (NaN).

The pipeline `clean_dataset` mirrors the ten numbered steps of the Python
function of the same name, step by step.  A raised Python exception is
modelled as `none` (the only raising site inside the pipeline is the
unguarded `df["Product_Name"]` access in the category-correction step).
`clean_dataset_heap` additionally models the Python object heap, so that
the `df = df.copy()` line (mutation of a private copy, caller's object
untouched) is an actual theorem rather than a triviality.

Library semantics embedded from pandas/Python and relied on below:
* `Series.astype(str)` renders NaN as the string `"nan"`;
* `Series.str.*` accessors yield NaN on non-string cells;
* `df.loc[mask, col] = v` with `col` absent creates the column (NaN
  outside the mask) — "setitem with enlargement";
* `Series.map(dict).fillna(orig)` keeps the original value when the
  lookup misses;
* `clip` and arithmetic propagate NaN;
* Python `str.strip`/`str.lower`/`str.title` are modelled on the ASCII
  fragment (every string in the fixed configuration tables and in the
  claims is ASCII).
-/

set_option autoImplicit false

namespace RetailClean

/-! ## Python string primitives (ASCII fragment) -/

/-- Python whitespace stripped by `str.strip` (ASCII part: space, `\t`,
`\n`, `\r`, `\x0b`, `\x0c`). -/
def isSpaceChar (c : Char) : Bool :=
  c.toNat = 32 || c.toNat = 9 || c.toNat = 10 || c.toNat = 13 || c.toNat = 11 || c.toNat = 12

def stripChars (l : List Char) : List Char :=
  ((l.dropWhile isSpaceChar).reverse.dropWhile isSpaceChar).reverse

/-- Python `str.strip()`. -/
def pyStrip (s : String) : String := ⟨stripChars s.toList⟩

/-- Python `str.lower()` on one character (ASCII fragment). -/
def pyLowerChar (c : Char) : Char :=
  if 65 ≤ c.toNat ∧ c.toNat ≤ 90 then Char.ofNat (c.toNat + 32) else c

/-- Python `str.lower()`. -/
def pyLower (s : String) : String := ⟨s.toList.map pyLowerChar⟩

/-- Python `str.upper()` on one character (ASCII fragment). -/
def pyUpperChar (c : Char) : Char :=
  if 97 ≤ c.toNat ∧ c.toNat ≤ 122 then Char.ofNat (c.toNat - 32) else c

def titleChars : Bool → List Char → List Char
  | _, [] => []
  | prevAlpha, c :: t =>
    (if c.isAlpha then (if prevAlpha then pyLowerChar c else pyUpperChar c) else c)
      :: titleChars c.isAlpha t

/-- Python `str.title()`: the first letter of every maximal run of letters is
upper-cased, the remaining letters lower-cased (ASCII fragment). -/
def pyTitle (s : String) : String := ⟨titleChars false s.toList⟩

/-- `s` contains `key` as a (contiguous) substring.  Embeds Python's
`key in s` / `Series.str.contains(key)` — the fixed category keywords
contain no regex metacharacters, so regex containment is plain substring
containment for them. -/
def listStartsWithChars : List Char → List Char → Bool
  | _, [] => true
  | [], _ :: _ => false
  | a :: as, b :: bs => a = b && listStartsWithChars as bs

def listHasSub : List Char → List Char → Bool
  | [], pat => listStartsWithChars [] pat
  | l@(_ :: t), pat => listStartsWithChars l pat || listHasSub t pat

def strContains (s key : String) : Bool := listHasSub s.toList key.toList

/-- Value of a decimal digit string, most significant first. -/
def digitsVal (l : List Char) : Nat :=
  l.foldl (fun n c => 10 * n + (c.toNat - 48)) 0

/-- Unsigned part of Python `float(·)`: digits with an optional single
decimal point (scientific notation, `inf` and `nan` literals are not
modelled — no claim involves them). -/
def parseUnsignedRat (l : List Char) : Option Rat :=
  let ip := l.takeWhile Char.isDigit
  let rest := l.drop ip.length
  match rest with
  | [] => if ip.isEmpty then none else some (digitsVal ip : Rat)
  | '.' :: fp =>
      if fp.all Char.isDigit && !(ip.isEmpty && fp.isEmpty) then
        some ((digitsVal ip : Rat) + (digitsVal fp : Rat) / ((10 : Rat) ^ fp.length))
      else none
  | _ => none

/-- Python `float(s)` as used by `pd.to_numeric(·, errors="coerce")` on a
string cell: `none` models the coercion to NaN. -/
def pyFloat (s : String) : Option Rat :=
  match (pyStrip s).toList with
  | '-' :: t => (parseUnsignedRat t).map (fun q => -q)
  | '+' :: t => parseUnsignedRat t
  | l => parseUnsignedRat l

/-! ## Cell values -/

inductive Value where
  | str (s : String)
  | num (q : Rat)
  | date (y m d : Nat)
  | bool (b : Bool)
  | na
deriving DecidableEq

/-- `Series.astype(str)` on one cell.  NaN is stringified to `"nan"`
(the pandas coercion artifact).  The renderings of numbers, dates and
booleans approximate pandas' (`-5.0`, `2024-01-02`, `True`); no claim
depends on them. -/
def astypeStr : Value → String
  | .str s => s
  | .num q => if q.den = 1 then toString q.num ++ ".0" else toString q.num ++ "/" ++ toString q.den
  | .date y m d => toString y ++ "-" ++ toString m ++ "-" ++ toString d
  | .bool b => if b then "True" else "False"
  | .na => "nan"

/-- Step 2 cell semantics: `col.astype(str).str.strip()`. -/
def normalizeValue (v : Value) : Value := .str (pyStrip (astypeStr v))

/-- `pd.to_numeric(·, errors="coerce")` on one cell. -/
def toNumeric : Value → Value
  | .num q => .num q
  | .str s => match pyFloat s with | some q => .num q | none => .na
  | .bool b => .num (if b then 1 else 0)
  | .date _ _ _ => .na
  | .na => .na

/-- Month-first date parsing: `M/D/Y` (also ISO `Y-M-D`).  Embeds
`pd.to_datetime(·, errors="coerce", dayfirst=False)` at the level the
claims need; range validation and the many other accepted layouts are not
modelled (no claim involves date values). -/
def parseDateMDY (s : String) : Option (Nat × Nat × Nat) :=
  match (s.splitOn "/").map String.toList with
  | [ms, ds, ys] =>
      if !ms.isEmpty && !ds.isEmpty && !ys.isEmpty
          && ms.all Char.isDigit && ds.all Char.isDigit && ys.all Char.isDigit then
        some (digitsVal ys, digitsVal ms, digitsVal ds)
      else none
  | _ =>
    match (s.splitOn "-").map String.toList with
    | [ys, ms, ds] =>
        if !ms.isEmpty && !ds.isEmpty && !ys.isEmpty
            && ms.all Char.isDigit && ds.all Char.isDigit && ys.all Char.isDigit then
          some (digitsVal ys, digitsVal ms, digitsVal ds)
        else none
    | _ => none

/-- `pd.to_datetime(·, errors="coerce", dayfirst=False)` on one cell
(numeric epoch interpretation not modelled — no claim involves it). -/
def toDatetime : Value → Value
  | .date y m d => .date y m d
  | .str s => match parseDateMDY s with | some (y, m, d) => .date y m d | none => .na
  | _ => .na

/-- Step 6 cell semantics: `col.str.lower().map(M).fillna(col)` — look up
the lower-cased value, keep the original (case preserved) on a miss. -/
def harmonizeValue (m : List (String × String)) (v : Value) : Value :=
  match v with
  | .str s =>
      match m.lookup (pyLower s) with
      | some lab => .str lab
      | none => .str s
  | other => other

/-- Step 7 cell semantics for the email itself: `col.str.lower().str.strip()`
(the `.str` accessor yields NaN on a non-string cell). -/
def emailNormValue : Value → Value
  | .str s => .str (pyStrip (pyLower s))
  | _ => .na

/-- `clip(lo, hi)` on one cell; NaN propagates. -/
def clipValue (lo hi : Rat) : Value → Value
  | .num q => .num (min hi (max lo q))
  | v => v

/-- `str.title()` on one cell (`.str` accessor: NaN on non-strings). -/
def titleValue : Value → Value
  | .str s => .str (pyTitle s)
  | _ => .na

/-! ## The email pattern

`EMAIL_REGEX = ^[a-zA-Z0-9._%+-]+@[a-zA-Z0-9.-]+\.[a-zA-Z]{2,}$`

The anchored regex is embedded directly as a decidable predicate: the
string is `local@domain` with a non-empty local part over the local
character class, and the domain splits at its last dot into a non-empty
prefix over `[a-zA-Z0-9.-]` and a top-level label of at least two letters.
(Any regex split must use the last dot, since the top-level label admits
no dot, so this is exactly the language of the pattern.) -/

def isEmailLocalChar (c : Char) : Bool :=
  c.isAlphanum || c = '.' || c = '_' || c = '%' || c = '+' || c = '-'

def isEmailLabelChar (c : Char) : Bool :=
  c.isAlphanum || c = '-'

/-- Split a character list at every occurrence of `sep` (the semantics of
`String.splitOn` for a one-character separator, in structural form). -/
def splitOnChar (sep : Char) : List Char → List (List Char)
  | [] => [[]]
  | c :: t =>
    if c = sep then [] :: splitOnChar sep t
    else match splitOnChar sep t with
      | [] => [[c]]
      | h :: t' => (c :: h) :: t'

def validEmail (s : String) : Bool :=
  match splitOnChar '@' s.toList with
  | [lp, dom] =>
      !lp.isEmpty && lp.all isEmailLocalChar &&
      (match (splitOnChar '.' dom).reverse with
       | [] => false
       | [_] => false
       | tld :: p :: ps =>
           decide (2 ≤ tld.length) && tld.all Char.isAlpha &&
           !(p.isEmpty && ps.isEmpty) &&
           ((p :: ps).all (fun q => q.all isEmailLabelChar)))
  | _ => false

/-- `Series.str.match(EMAIL_REGEX, na=False)` on one cell. -/
def emailMatchValue : Value → Bool
  | .str s => validEmail s
  | _ => false

/-! ## Rows and data frames -/

abbrev Row := List (String × Value)

/-- `row[c]`: the first binding of column `c`; absent cells read as NaN
(models the NaN fill of "setitem with enlargement"). -/
def Row.get : Row → String → Value
  | [], _ => .na
  | p :: t, c => if p.1 = c then p.2 else Row.get t c

/-- Write column `c` of a row: replace the first binding, or append a new
one (pandas column creation appends at the end of the column order). -/
def Row.set : Row → String → Value → Row
  | [], c, v => [(c, v)]
  | p :: t, c, v => if p.1 = c then (c, v) :: t else p :: Row.set t c v

/-- An ordered sequence of rows sharing a column order — a pandas
`DataFrame`. -/
structure DataFrame where
  cols : List String
  rows : List Row
deriving DecidableEq

def addColName (cols : List String) (c : String) : List String :=
  if c ∈ cols then cols else cols ++ [c]

/-! ## Fixed configuration tables (verbatim from the source) -/

def CATEGORY_MAPPINGS : List (String × String) :=
  [("laptop", "Electronics"),
   ("sofa", "Home"),
   ("shoes", "Fashion"),
   ("shampoo", "Beauty"),
   ("novel", "Books")]

def TEXT_COLUMNS : List String :=
  ["City", "Product_Category", "Product_Name", "Payment_Mode",
   "Delivery_Status", "Customer_Name", "Email", "Gender", "Country"]

def NUMERIC_COLUMNS : List String :=
  ["Purchase_Amount", "Discount_Offered", "Customer_Satisfaction", "Age"]

def DATE_COLUMNS : List String := ["Purchase_Date"]

def PAYMENT_MODE_MAP : List (String × String) :=
  [("upi", "UPI"),
   ("debit card", "Debit Card"),
   ("credit card", "Credit Card"),
   ("cash", "Cash"),
   ("net banking", "Net Banking")]

def DELIVERY_STATUS_MAP : List (String × String) :=
  [("delivered", "Delivered"),
   ("pending", "Pending"),
   ("cancelled", "Cancelled"),
   ("returned", "Returned")]

def GENDER_MAP : List (String × String) :=
  [("male", "Male"), ("female", "Female"), ("m", "Male"), ("f", "Female")]

/-! ## The ten pipeline steps, per row

Every column operation of the source is a per-row cell transform (guarded
on column presence), so each step is a `List.map` over the rows.  The
`cols` argument of a step is the column order the frame has when that step
runs. -/

/-- Rename every key of a row (step 1 renames the columns). -/
def stripKeysRow (r : Row) : Row := r.map (fun p => (pyStrip p.1, p.2))

/-- Steps 2, 4, 5, 9 share this shape: for each declared column present,
rewrite the cell with a fixed cell transform. -/
def condColsFold (cs : List String) (g : Value → Value) (cols : List String) (r : Row) : Row :=
  cs.foldl (fun acc col => if col ∈ cols then Row.set acc col (g (Row.get acc col)) else acc) r

/-- Step 2: text normalisation. -/
def textRow (cols : List String) (r : Row) : Row :=
  condColsFold TEXT_COLUMNS normalizeValue cols r

/-- The mask of step 3:
`df["Product_Name"].str.lower().str.contains(key, na=False)`. -/
def catMask (key : String) (r : Row) : Bool :=
  match Row.get r "Product_Name" with
  | .str s => strContains (pyLower s) key
  | _ => false

/-- Step 3: category correction.  Each `(keyword, category)` pair in
declared order overwrites `Product_Category` on the rows whose product
name contains the keyword.  (The source also accumulates `mask_any`,
which is never used afterwards.) -/
def catRow (r : Row) : Row :=
  CATEGORY_MAPPINGS.foldl
    (fun acc kc => if catMask kc.1 acc then Row.set acc "Product_Category" (.str kc.2) else acc)
    r

/-- Step 4: numeric coercion. -/
def numRow (cols : List String) (r : Row) : Row :=
  condColsFold NUMERIC_COLUMNS toNumeric cols r

/-- Step 5: date parsing. -/
def dateRow (cols : List String) (r : Row) : Row :=
  condColsFold DATE_COLUMNS toDatetime cols r

/-- Step 6: categorical harmonisation (three guarded column rewrites). -/
def harmRow (cols : List String) (r : Row) : Row :=
  let r1 := if "Payment_Mode" ∈ cols then
      Row.set r "Payment_Mode" (harmonizeValue PAYMENT_MODE_MAP (Row.get r "Payment_Mode"))
    else r
  let r2 := if "Delivery_Status" ∈ cols then
      Row.set r1 "Delivery_Status" (harmonizeValue DELIVERY_STATUS_MAP (Row.get r1 "Delivery_Status"))
    else r1
  if "Gender" ∈ cols then
    Row.set r2 "Gender" (harmonizeValue GENDER_MAP (Row.get r2 "Gender"))
  else r2

/-- Step 7: email normalisation in place, then the validity flag column
(computed from the just-normalised email). -/
def emailRow (cols : List String) (r : Row) : Row :=
  if "Email" ∈ cols then
    let r1 := Row.set r "Email" (emailNormValue (Row.get r "Email"))
    Row.set r1 "Email_Valid" (.bool (emailMatchValue (Row.get r1 "Email")))
  else r

/-- Step 8: satisfaction clipping into [1, 5]. -/
def satRow (cols : List String) (r : Row) : Row :=
  if "Customer_Satisfaction" ∈ cols then
    Row.set r "Customer_Satisfaction" (clipValue 1 5 (Row.get r "Customer_Satisfaction"))
  else r

/-- Step 9: proper-casing of City / Country. -/
def titleRow (cols : List String) (r : Row) : Row :=
  condColsFold ["City", "Country"] titleValue cols r

/-- The masks of step 10. -/
def missNameValue : Value → Bool
  | .str s => s.isEmpty
  | .na => true
  | _ => false

def badAmountValue : Value → Bool
  | .num q => decide (q ≤ 0)
  | .na => true
  | _ => false

def emailInvalidValue : Value → Bool
  | .bool b => !b
  | _ => false

/-- `df.loc[mask, "Data_Quality_Issues"] += msg` on one masked row.
The cell is always a string here (it was just initialised to `""`). -/
def dqAppend (r : Row) (msg : String) : Row :=
  match Row.get r "Data_Quality_Issues" with
  | .str s => Row.set r "Data_Quality_Issues" (.str (s ++ msg))
  | _ => r

/-- Step 10: quality flagging — initialise to `""`, then the three guarded
checks in their fixed order. -/
def qualityRow (cols : List String) (r : Row) : Row :=
  let r0 := Row.set r "Data_Quality_Issues" (.str "")
  let r1 := if "Customer_Name" ∈ cols then
      (if missNameValue (Row.get r0 "Customer_Name") then dqAppend r0 "Missing Customer Name; " else r0)
    else r0
  let r2 := if "Email" ∈ cols then
      (if emailInvalidValue (Row.get r1 "Email_Valid") then dqAppend r1 "Invalid Email; " else r1)
    else r1
  if "Purchase_Amount" ∈ cols then
    (if badAmountValue (Row.get r2 "Purchase_Amount") then dqAppend r2 "Invalid Purchase Amount; " else r2)
  else r2

/-! ## The pipeline -/

/-- `clean_dataset`, step by step.  `none` models the `KeyError` raised by
the unguarded `df["Product_Name"]` access of step 3 when that column is
absent; every other step is guarded on column presence.  Step 3 also
creates `Product_Category` when absent (setitem with enlargement), step 7
creates `Email_Valid` when `Email` is present, and step 10 always creates
(or overwrites) `Data_Quality_Issues`.  The console summary print of the
source is output-free. -/
def clean_dataset (df : DataFrame) : Option DataFrame :=
  -- df = df.copy() — the heap-level model is `clean_dataset_heap` below
  -- 1 column name hygiene
  let df := DataFrame.mk (df.cols.map pyStrip) (df.rows.map stripKeysRow)
  -- 2 text normalisation
  let df := DataFrame.mk df.cols (df.rows.map (textRow df.cols))
  -- 3 product category correction
  if "Product_Name" ∈ df.cols then
    let df := DataFrame.mk (addColName df.cols "Product_Category") (df.rows.map catRow)
    -- 4 numeric coercion
    let df := DataFrame.mk df.cols (df.rows.map (numRow df.cols))
    -- 5 date parsing
    let df := DataFrame.mk df.cols (df.rows.map (dateRow df.cols))
    -- 6 categorical harmonisation
    let df := DataFrame.mk df.cols (df.rows.map (harmRow df.cols))
    -- 7 email validation & formatting
    let df := DataFrame.mk
      (if "Email" ∈ df.cols then addColName df.cols "Email_Valid" else df.cols)
      (df.rows.map (emailRow df.cols))
    -- 8 satisfaction clipping
    let df := DataFrame.mk df.cols (df.rows.map (satRow df.cols))
    -- 9 proper-case cities / countries
    let df := DataFrame.mk df.cols (df.rows.map (titleRow df.cols))
    -- 10 quality flags
    some (DataFrame.mk (addColName df.cols "Data_Quality_Issues") (df.rows.map (qualityRow df.cols)))
  else none

/-- The Python heap, restricted to `DataFrame` objects: cell `i` is the
object the caller passed.  `clean_dataset df` receives a reference,
allocates a copy (`df = df.copy()`), and every subsequent mutation targets
the copy; the returned reference is the copy's. -/
def clean_dataset_heap (h : List DataFrame) (i : Nat) : Option (List DataFrame × Nat) :=
  match h[i]? with
  | none => none
  | some df =>
    match clean_dataset df with
    | none => none
    | some out => some ((h ++ [df]).set h.length out, h.length)

/-- Projection used to compare category assignments: the
`Product_Category` value of row `k` of a (possibly failed) pipeline
result. -/
def catAt (odf : Option DataFrame) (k : Nat) : Option Value :=
  odf.bind (fun d => (d.rows[k]?).map (fun r => Row.get r "Product_Category"))

/-! ## The pipeline in row normal form

Every step maps a fixed per-row function over the rows, so the whole
pipeline does too; `cleanRowFun` is that composite, and the column order
evolves independently of the rows. -/

def colsAfterCat (cols : List String) : List String := addColName cols "Product_Category"

def colsAfterEmail (cols : List String) : List String :=
  if "Email" ∈ colsAfterCat cols then addColName (colsAfterCat cols) "Email_Valid"
  else colsAfterCat cols

def finalCols (cols : List String) : List String :=
  addColName (colsAfterEmail cols) "Data_Quality_Issues"

def preQualityRow (cols : List String) (r : Row) : Row :=
  titleRow (colsAfterEmail cols)
    (satRow (colsAfterEmail cols)
      (emailRow (colsAfterCat cols)
        (harmRow (colsAfterCat cols)
          (dateRow (colsAfterCat cols)
            (numRow (colsAfterCat cols)
              (catRow (textRow cols (stripKeysRow r))))))))

def cleanRowFun (cols : List String) (r : Row) : Row :=
  qualityRow (colsAfterEmail cols) (preQualityRow cols r)

/-- The cell of row `k`, column `c` of a (possibly failed) pipeline result. -/
def cellAt (odf : Option DataFrame) (k : Nat) (c : String) : Option Value :=
  odf.bind (fun d => (d.rows[k]?).map (fun r => Row.get r c))

/-- The category pairs whose keyword occurs in the row's lower-cased
product name, in declared order; the fold of step 3 ends on the last one. -/
def lastMatchCat (r : Row) : Option String :=
  ((CATEGORY_MAPPINGS.filter (fun kc => catMask kc.1 r)).map Prod.snd).getLast?

/-- All keys of a row are fixed points of stripping (true of every row the
pipeline produces, since step 1 strips all keys and later steps only write
literal column names). -/
def keysStripped (r : Row) : Prop := ∀ p ∈ r, pyStrip p.1 = p.1

theorem clean_dataset_eq (df : DataFrame) :
    clean_dataset df =
      if "Product_Name" ∈ df.cols.map pyStrip then
        some (DataFrame.mk (finalCols (df.cols.map pyStrip))
          (df.rows.map (cleanRowFun (df.cols.map pyStrip))))
      else none := by
  simp only [clean_dataset, List.map_map]
  rfl

/-! ## Row access lemmas -/

theorem Row.get_set (r : Row) (c c' : String) (v : Value) :
    Row.get (Row.set r c' v) c = if c = c' then v else Row.get r c := by
  induction r with
  | nil =>
    show Row.get [(c', v)] c = _
    by_cases h : c = c'
    · rw [if_pos h]
      show (if c' = c then v else Row.get [] c) = v
      rw [if_pos h.symm]
    · rw [if_neg h]
      show (if c' = c then v else Row.get [] c) = Row.get [] c
      rw [if_neg (fun hh => h hh.symm)]
  | cons p t ih =>
    show Row.get (if p.1 = c' then (c', v) :: t else p :: Row.set t c' v) c = _
    by_cases hp : p.1 = c'
    · rw [if_pos hp]
      by_cases h : c = c'
      · rw [if_pos h]
        show (if c' = c then v else Row.get t c) = v
        rw [if_pos h.symm]
      · rw [if_neg h]
        show (if c' = c then v else Row.get t c) = Row.get (p :: t) c
        rw [if_neg (fun hh => h hh.symm)]
        show Row.get t c = if p.1 = c then p.2 else Row.get t c
        rw [if_neg (fun hpc => h ((hpc.symm.trans hp)))]
    · rw [if_neg hp]
      show (if p.1 = c then p.2 else Row.get (Row.set t c' v) c) = _
      by_cases hpc : p.1 = c
      · rw [if_pos hpc, if_neg (fun hh : c = c' => hp (hpc.trans hh))]
        show p.2 = if p.1 = c then p.2 else Row.get t c
        rw [if_pos hpc]
      · rw [if_neg hpc, ih]
        by_cases h : c = c'
        · rw [if_pos h, if_pos h]
        · rw [if_neg h, if_neg h]
          show Row.get t c = if p.1 = c then p.2 else Row.get t c
          rw [if_neg hpc]

theorem mem_addColName {c n : String} {L : List String} :
    c ∈ addColName L n ↔ c ∈ L ∨ c = n := by
  unfold addColName
  by_cases h : n ∈ L
  · rw [if_pos h]
    exact ⟨Or.inl, fun hc => hc.elim id (fun hh => hh ▸ h)⟩
  · rw [if_neg h]
    simp

theorem mem_colsAfterCat_of_ne {c : String} (h1 : c ≠ "Product_Category")
    (cols : List String) : c ∈ colsAfterCat cols ↔ c ∈ cols := by
  simp [colsAfterCat, mem_addColName, h1]

theorem mem_colsAfterEmail_of_ne {c : String} (h1 : c ≠ "Product_Category")
    (h2 : c ≠ "Email_Valid") (cols : List String) :
    c ∈ colsAfterEmail cols ↔ c ∈ cols := by
  unfold colsAfterEmail
  split <;> simp [mem_addColName, h1, h2, colsAfterCat]

/-! ## Projections of the individual steps -/

theorem get_condColsFold_notMem (cs : List String) (g : Value → Value)
    (cols : List String) (r : Row) (c : String) (hc : c ∉ cs) :
    Row.get (condColsFold cs g cols r) c = Row.get r c := by
  induction cs generalizing r with
  | nil => rfl
  | cons a t ih =>
    have hca : c ≠ a := fun h => hc (h ▸ List.mem_cons_self a t)
    have hct : c ∉ t := fun h => hc (List.mem_cons_of_mem a h)
    have step : condColsFold (a :: t) g cols r
        = condColsFold t g cols (if a ∈ cols then Row.set r a (g (Row.get r a)) else r) := rfl
    rw [step, ih _ hct]
    by_cases h : a ∈ cols
    · rw [if_pos h, Row.get_set, if_neg hca]
    · rw [if_neg h]

theorem get_condColsFold_mem (cs : List String) (g : Value → Value)
    (cols : List String) (r : Row) (c : String) (hnd : cs.Nodup) (hc : c ∈ cs) :
    Row.get (condColsFold cs g cols r) c =
      if c ∈ cols then g (Row.get r c) else Row.get r c := by
  induction cs generalizing r with
  | nil => cases hc
  | cons a t ih =>
    have step : condColsFold (a :: t) g cols r
        = condColsFold t g cols (if a ∈ cols then Row.set r a (g (Row.get r a)) else r) := rfl
    rcases List.mem_cons.mp hc with rfl | hct
    · have hcn : c ∉ t := (List.nodup_cons.mp hnd).1
      rw [step, get_condColsFold_notMem t g cols _ c hcn]
      by_cases h : c ∈ cols
      · rw [if_pos h, if_pos h, Row.get_set, if_pos rfl]
      · rw [if_neg h, if_neg h]
    · have hca : c ≠ a := fun h => (List.nodup_cons.mp hnd).1 (h ▸ hct)
      rw [step, ih _ (List.nodup_cons.mp hnd).2 hct]
      by_cases h : a ∈ cols
      · rw [if_pos h, Row.get_set, if_neg hca]
      · rw [if_neg h]

theorem get_textRow (cols : List String) (r : Row) (c : String) (hc : c ∈ TEXT_COLUMNS) :
    Row.get (textRow cols r) c
      = if c ∈ cols then normalizeValue (Row.get r c) else Row.get r c :=
  get_condColsFold_mem _ _ _ _ _ (by decide) hc

theorem get_textRow_ne (cols : List String) (r : Row) (c : String) (hc : c ∉ TEXT_COLUMNS) :
    Row.get (textRow cols r) c = Row.get r c :=
  get_condColsFold_notMem _ _ _ _ _ hc

theorem get_numRow (cols : List String) (r : Row) (c : String) (hc : c ∈ NUMERIC_COLUMNS) :
    Row.get (numRow cols r) c
      = if c ∈ cols then toNumeric (Row.get r c) else Row.get r c :=
  get_condColsFold_mem _ _ _ _ _ (by decide) hc

theorem get_numRow_ne (cols : List String) (r : Row) (c : String) (hc : c ∉ NUMERIC_COLUMNS) :
    Row.get (numRow cols r) c = Row.get r c :=
  get_condColsFold_notMem _ _ _ _ _ hc

theorem get_dateRow_ne (cols : List String) (r : Row) (c : String) (hc : c ∉ DATE_COLUMNS) :
    Row.get (dateRow cols r) c = Row.get r c :=
  get_condColsFold_notMem _ _ _ _ _ hc

theorem get_titleRow_ne (cols : List String) (r : Row) (c : String)
    (hc : c ∉ (["City", "Country"] : List String)) :
    Row.get (titleRow cols r) c = Row.get r c :=
  get_condColsFold_notMem _ _ _ _ _ hc

/-! ### Step 3 projections: the last matching keyword wins -/

theorem catMask_set_pc (key : String) (r : Row) (v : Value) :
    catMask key (Row.set r "Product_Category" v) = catMask key r := by
  unfold catMask
  rw [Row.get_set, if_neg (by decide : ¬("Product_Name" = "Product_Category"))]

theorem get_catFold_ne (L : List (String × String)) (r : Row) (c : String)
    (hc : c ≠ "Product_Category") :
    Row.get (L.foldl
      (fun acc kc => if catMask kc.1 acc then Row.set acc "Product_Category" (.str kc.2) else acc)
      r) c = Row.get r c := by
  induction L generalizing r with
  | nil => rfl
  | cons kc t ih =>
    have step : (kc :: t).foldl
        (fun acc kc => if catMask kc.1 acc then Row.set acc "Product_Category" (.str kc.2) else acc) r
      = t.foldl
        (fun acc kc => if catMask kc.1 acc then Row.set acc "Product_Category" (.str kc.2) else acc)
        (if catMask kc.1 r then Row.set r "Product_Category" (.str kc.2) else r) := rfl
    rw [step, ih]
    by_cases hm : catMask kc.1 r = true
    · rw [if_pos hm, Row.get_set, if_neg hc]
    · rw [if_neg hm]

theorem get_catFold (L : List (String × String)) (r : Row) :
    Row.get (L.foldl
      (fun acc kc => if catMask kc.1 acc then Row.set acc "Product_Category" (.str kc.2) else acc)
      r) "Product_Category"
    = match ((L.filter (fun kc => catMask kc.1 r)).map Prod.snd).getLast? with
      | some cat => .str cat
      | none => Row.get r "Product_Category" := by
  induction L generalizing r with
  | nil => rfl
  | cons kc t ih =>
    have step : (kc :: t).foldl
        (fun acc kc => if catMask kc.1 acc then Row.set acc "Product_Category" (.str kc.2) else acc) r
      = t.foldl
        (fun acc kc => if catMask kc.1 acc then Row.set acc "Product_Category" (.str kc.2) else acc)
        (if catMask kc.1 r then Row.set r "Product_Category" (.str kc.2) else r) := rfl
    rw [step]
    by_cases hm : catMask kc.1 r = true
    · rw [if_pos hm, ih]
      have hf : (t.filter fun kc' => catMask kc'.1 (Row.set r "Product_Category" (.str kc.2)))
          = t.filter fun kc' => catMask kc'.1 r :=
        List.filter_congr (fun x _ => by rw [catMask_set_pc])
      rw [hf, List.filter_cons, if_pos hm, List.map_cons]
      cases hmap : (t.filter fun kc' => catMask kc'.1 r).map Prod.snd with
      | nil => simp [Row.get_set]
      | cons b l =>
        rw [List.getLast?_cons_cons,
          List.getLast?_eq_getLast_of_ne_nil (List.cons_ne_nil b l)]
    · rw [if_neg hm, ih, List.filter_cons, if_neg hm]

theorem get_catRow_pc (r : Row) :
    Row.get (catRow r) "Product_Category"
      = match lastMatchCat r with
        | some cat => .str cat
        | none => Row.get r "Product_Category" :=
  get_catFold CATEGORY_MAPPINGS r

theorem get_catRow_ne (r : Row) (c : String) (hc : c ≠ "Product_Category") :
    Row.get (catRow r) c = Row.get r c :=
  get_catFold_ne CATEGORY_MAPPINGS r c hc

/-! ### Step 6 projections -/

theorem get_harmRow_ne (cols : List String) (r : Row) (c : String)
    (h1 : c ≠ "Payment_Mode") (h2 : c ≠ "Delivery_Status") (h3 : c ≠ "Gender") :
    Row.get (harmRow cols r) c = Row.get r c := by
  unfold harmRow
  split_ifs <;> simp [Row.get_set, h1, h2, h3]

theorem get_harmRow_pm (cols : List String) (r : Row) :
    Row.get (harmRow cols r) "Payment_Mode"
      = if "Payment_Mode" ∈ cols then
          harmonizeValue PAYMENT_MODE_MAP (Row.get r "Payment_Mode")
        else Row.get r "Payment_Mode" := by
  unfold harmRow
  split_ifs <;> simp [Row.get_set]

theorem get_harmRow_ds (cols : List String) (r : Row) :
    Row.get (harmRow cols r) "Delivery_Status"
      = if "Delivery_Status" ∈ cols then
          harmonizeValue DELIVERY_STATUS_MAP (Row.get r "Delivery_Status")
        else Row.get r "Delivery_Status" := by
  unfold harmRow
  split_ifs <;> simp [Row.get_set]

theorem get_harmRow_g (cols : List String) (r : Row) :
    Row.get (harmRow cols r) "Gender"
      = if "Gender" ∈ cols then
          harmonizeValue GENDER_MAP (Row.get r "Gender")
        else Row.get r "Gender" := by
  unfold harmRow
  split_ifs <;> simp [Row.get_set]

/-! ### Step 7 projections -/

theorem get_emailRow_ne (cols : List String) (r : Row) (c : String)
    (h1 : c ≠ "Email") (h2 : c ≠ "Email_Valid") :
    Row.get (emailRow cols r) c = Row.get r c := by
  unfold emailRow
  split_ifs <;> simp [Row.get_set, h1, h2]

theorem get_emailRow_ev (cols : List String) (r : Row) (h : "Email" ∈ cols) :
    Row.get (emailRow cols r) "Email_Valid"
      = .bool (emailMatchValue (emailNormValue (Row.get r "Email"))) := by
  unfold emailRow
  rw [if_pos h]
  simp [Row.get_set]

theorem get_emailRow_email (cols : List String) (r : Row) (h : "Email" ∈ cols) :
    Row.get (emailRow cols r) "Email" = emailNormValue (Row.get r "Email") := by
  unfold emailRow
  rw [if_pos h]
  simp [Row.get_set]

/-! ### Step 8 projections -/

theorem get_satRow_ne (cols : List String) (r : Row) (c : String)
    (h : c ≠ "Customer_Satisfaction") :
    Row.get (satRow cols r) c = Row.get r c := by
  unfold satRow
  split_ifs <;> simp [Row.get_set, h]

theorem get_satRow_cs (cols : List String) (r : Row) :
    Row.get (satRow cols r) "Customer_Satisfaction"
      = if "Customer_Satisfaction" ∈ cols then
          clipValue 1 5 (Row.get r "Customer_Satisfaction")
        else Row.get r "Customer_Satisfaction" := by
  unfold satRow
  split_ifs <;> simp [Row.get_set]

/-! ### Step 10 projections -/

theorem Row.get_ite (P : Prop) [Decidable P] (a b : Row) (c : String) :
    Row.get (if P then a else b) c = if P then Row.get a c else Row.get b c :=
  apply_ite (fun x => Row.get x c) P a b

theorem get_dqAppend_ne (r : Row) (msg : String) (c : String)
    (h : c ≠ "Data_Quality_Issues") :
    Row.get (dqAppend r msg) c = Row.get r c := by
  unfold dqAppend
  cases hv : Row.get r "Data_Quality_Issues" <;> simp [Row.get_set, h]

theorem get_dqAppend_dq (r : Row) (msg : String) :
    Row.get (dqAppend r msg) "Data_Quality_Issues"
      = match Row.get r "Data_Quality_Issues" with
        | .str s => .str (s ++ msg)
        | v => v := by
  unfold dqAppend
  cases hv : Row.get r "Data_Quality_Issues" <;> simp [hv, Row.get_set]

theorem get_qualityRow_ne (cols : List String) (r : Row) (c : String)
    (h : c ≠ "Data_Quality_Issues") :
    Row.get (qualityRow cols r) c = Row.get r c := by
  unfold qualityRow
  simp [Row.get_ite, get_dqAppend_ne, Row.get_set, h, ite_self]

theorem get_qualityRow_dq (cols : List String) (r : Row) :
    Row.get (qualityRow cols r) "Data_Quality_Issues"
      = .str ((if "Customer_Name" ∈ cols then
            (if missNameValue (Row.get r "Customer_Name") then "Missing Customer Name; " else "")
          else "")
        ++ (if "Email" ∈ cols then
            (if emailInvalidValue (Row.get r "Email_Valid") then "Invalid Email; " else "")
          else "")
        ++ (if "Purchase_Amount" ∈ cols then
            (if badAmountValue (Row.get r "Purchase_Amount") then "Invalid Purchase Amount; " else "")
          else "")) := by
  unfold qualityRow
  simp [Row.get_ite, get_dqAppend_ne, get_dqAppend_dq, Row.get_set]
  split_ifs <;> simp_all

/-! ## Python string lemmas

Stripping is idempotent, and stripping commutes with lower-casing (so the
email stored by step 7, `strip (lower (strip s))`, is exactly
`lower (strip s)`, the "lower-cased, trimmed value" of the specification). -/

theorem head?_dropWhile_false (p : Char → Bool) (l : List Char) (c : Char)
    (h : (l.dropWhile p).head? = some c) : p c = false := by
  induction l with
  | nil => cases h
  | cons a t ih =>
    rw [List.dropWhile_cons] at h
    by_cases hp : p a = true
    · rw [if_pos hp] at h
      exact ih h
    · rw [if_neg hp, List.head?_cons] at h
      obtain rfl : a = c := by injection h
      exact (Bool.not_eq_true (p a)) ▸ hp

theorem dropWhile_eq_self_of_head (p : Char → Bool) (l : List Char)
    (h : ∀ c, l.head? = some c → p c = false) : l.dropWhile p = l := by
  cases l with
  | nil => rfl
  | cons a t =>
    rw [List.dropWhile_cons]
    simp [h a rfl]

theorem getLast?_dropWhile (p : Char → Bool) (l : List Char)
    (hne : l.dropWhile p ≠ []) : (l.dropWhile p).getLast? = l.getLast? := by
  induction l with
  | nil => rfl
  | cons a t ih =>
    rw [List.dropWhile_cons]
    by_cases hp : p a = true
    · rw [if_pos hp]
      rw [List.dropWhile_cons, if_pos hp] at hne
      have ht : t ≠ [] := by
        intro hnil
        rw [hnil] at hne
        exact hne rfl
      obtain ⟨b, t', rfl⟩ := List.exists_cons_of_ne_nil ht
      rw [ih hne, List.getLast?_cons_cons]
    · rw [if_neg hp]

theorem dropWhile_dropWhile (p : Char → Bool) (l : List Char) :
    (l.dropWhile p).dropWhile p = l.dropWhile p :=
  dropWhile_eq_self_of_head p _ (fun c hc => head?_dropWhile_false p l c hc)

theorem stripChars_idem (l : List Char) : stripChars (stripChars l) = stripChars l := by
  by_cases hv : (l.dropWhile isSpaceChar).reverse.dropWhile isSpaceChar = []
  · unfold stripChars
    rw [hv]
    rfl
  · have hu_ne : l.dropWhile isSpaceChar ≠ [] := by
      intro h
      rw [h] at hv
      exact hv rfl
    have hA : ((l.dropWhile isSpaceChar).reverse.dropWhile isSpaceChar).reverse.dropWhile
        isSpaceChar = ((l.dropWhile isSpaceChar).reverse.dropWhile isSpaceChar).reverse := by
      apply dropWhile_eq_self_of_head
      intro c hc
      rw [List.head?_reverse, getLast?_dropWhile _ _ hv, List.getLast?_reverse] at hc
      exact head?_dropWhile_false isSpaceChar l c hc
    show ((((l.dropWhile isSpaceChar).reverse.dropWhile isSpaceChar).reverse.dropWhile
        isSpaceChar).reverse.dropWhile isSpaceChar).reverse = _
    rw [hA, List.reverse_reverse, dropWhile_dropWhile]
    rfl

theorem toNat_pyLowerShift (c : Char) (h1 : 65 ≤ c.toNat) (h2 : c.toNat ≤ 90) :
    (Char.ofNat (c.toNat + 32)).toNat = c.toNat + 32 := by
  have hv : Nat.isValidChar (c.toNat + 32) := Or.inl (by omega)
  rw [Char.ofNat, dif_pos hv]
  rfl

theorem isSpaceChar_pyLowerChar (c : Char) :
    isSpaceChar (pyLowerChar c) = isSpaceChar c := by
  unfold pyLowerChar
  by_cases h : 65 ≤ c.toNat ∧ c.toNat ≤ 90
  · rw [if_pos h]
    obtain ⟨h1, h2⟩ := h
    have hval := toNat_pyLowerShift c h1 h2
    have hL : isSpaceChar (Char.ofNat (c.toNat + 32)) = false := by
      simp only [isSpaceChar, hval]
      simp only [Bool.or_eq_false_iff, decide_eq_false_iff_not]
      omega
    have hR : isSpaceChar c = false := by
      simp only [isSpaceChar]
      simp only [Bool.or_eq_false_iff, decide_eq_false_iff_not]
      omega
    rw [hL, hR]
  · rw [if_neg h]

theorem stripChars_map_lower (l : List Char) :
    stripChars (l.map pyLowerChar) = (stripChars l).map pyLowerChar := by
  have hpf : isSpaceChar ∘ pyLowerChar = isSpaceChar := funext isSpaceChar_pyLowerChar
  unfold stripChars
  rw [List.dropWhile_map, hpf, ← List.map_reverse, List.dropWhile_map, hpf, ← List.map_reverse]

theorem pyStrip_idem (s : String) : pyStrip (pyStrip s) = pyStrip s :=
  congrArg String.mk (stripChars_idem s.toList)

theorem pyStrip_lower_strip (s : String) :
    pyStrip (pyLower (pyStrip s)) = pyLower (pyStrip s) := by
  show String.mk (stripChars ((stripChars s.toList).map pyLowerChar)) = _
  rw [stripChars_map_lower, stripChars_idem]
  rfl

/-! ## Pipeline-level projections

The value each column of interest holds when step 10 runs, in terms of
the key-stripped input row. -/

theorem clean_dataset_none_iff (df : DataFrame) :
    clean_dataset df = none ↔ "Product_Name" ∉ df.cols.map pyStrip := by
  rw [clean_dataset_eq]
  by_cases h : "Product_Name" ∈ df.cols.map pyStrip
  · rw [if_pos h]
    simp [h]
  · rw [if_neg h]
    simp [h]

theorem cellAt_clean (df : DataFrame) (hPN : "Product_Name" ∈ df.cols.map pyStrip)
    (k : Nat) (r : Row) (hr : df.rows[k]? = some r) (c : String) :
    cellAt (clean_dataset df) k c
      = some (Row.get (cleanRowFun (df.cols.map pyStrip) r) c) := by
  rw [clean_dataset_eq, if_pos hPN]
  unfold cellAt
  simp [List.getElem?_map, hr]

theorem get_preQuality_cn (cols : List String) (r : Row) (hCN : "Customer_Name" ∈ cols) :
    Row.get (preQualityRow cols r) "Customer_Name"
      = normalizeValue (Row.get (stripKeysRow r) "Customer_Name") := by
  unfold preQualityRow
  rw [get_titleRow_ne _ _ "Customer_Name" (by decide),
    get_satRow_ne _ _ "Customer_Name" (by decide),
    get_emailRow_ne _ _ "Customer_Name" (by decide) (by decide),
    get_harmRow_ne _ _ "Customer_Name" (by decide) (by decide) (by decide),
    get_dateRow_ne _ _ "Customer_Name" (by decide),
    get_numRow_ne _ _ "Customer_Name" (by decide),
    get_catRow_ne _ "Customer_Name" (by decide),
    get_textRow _ _ "Customer_Name" (by decide), if_pos hCN]

theorem get_preQuality_pn (cols : List String) (r : Row) (hPN : "Product_Name" ∈ cols) :
    Row.get (preQualityRow cols r) "Product_Name"
      = normalizeValue (Row.get (stripKeysRow r) "Product_Name") := by
  unfold preQualityRow
  rw [get_titleRow_ne _ _ "Product_Name" (by decide),
    get_satRow_ne _ _ "Product_Name" (by decide),
    get_emailRow_ne _ _ "Product_Name" (by decide) (by decide),
    get_harmRow_ne _ _ "Product_Name" (by decide) (by decide) (by decide),
    get_dateRow_ne _ _ "Product_Name" (by decide),
    get_numRow_ne _ _ "Product_Name" (by decide),
    get_catRow_ne _ "Product_Name" (by decide),
    get_textRow _ _ "Product_Name" (by decide), if_pos hPN]

theorem get_preQuality_ev (cols : List String) (r : Row) (hE : "Email" ∈ cols) :
    Row.get (preQualityRow cols r) "Email_Valid"
      = .bool (emailMatchValue (emailNormValue
          (normalizeValue (Row.get (stripKeysRow r) "Email")))) := by
  have hE' : "Email" ∈ colsAfterCat cols :=
    (mem_colsAfterCat_of_ne (by decide) cols).mpr hE
  unfold preQualityRow
  rw [get_titleRow_ne _ _ "Email_Valid" (by decide),
    get_satRow_ne _ _ "Email_Valid" (by decide),
    get_emailRow_ev _ _ hE',
    get_harmRow_ne _ _ "Email" (by decide) (by decide) (by decide),
    get_dateRow_ne _ _ "Email" (by decide),
    get_numRow_ne _ _ "Email" (by decide),
    get_catRow_ne _ "Email" (by decide),
    get_textRow _ _ "Email" (by decide), if_pos hE]

theorem get_preQuality_pa (cols : List String) (r : Row)
    (hPA : "Purchase_Amount" ∈ cols) :
    Row.get (preQualityRow cols r) "Purchase_Amount"
      = toNumeric (Row.get (stripKeysRow r) "Purchase_Amount") := by
  have hPA' : "Purchase_Amount" ∈ colsAfterCat cols :=
    (mem_colsAfterCat_of_ne (by decide) cols).mpr hPA
  unfold preQualityRow
  rw [get_titleRow_ne _ _ "Purchase_Amount" (by decide),
    get_satRow_ne _ _ "Purchase_Amount" (by decide),
    get_emailRow_ne _ _ "Purchase_Amount" (by decide) (by decide),
    get_harmRow_ne _ _ "Purchase_Amount" (by decide) (by decide) (by decide),
    get_dateRow_ne _ _ "Purchase_Amount" (by decide),
    get_numRow _ _ "Purchase_Amount" (by decide), if_pos hPA',
    get_catRow_ne _ "Purchase_Amount" (by decide),
    get_textRow_ne _ _ "Purchase_Amount" (by decide)]

theorem get_preQuality_cs (cols : List String) (r : Row)
    (hCS : "Customer_Satisfaction" ∈ cols) :
    Row.get (preQualityRow cols r) "Customer_Satisfaction"
      = clipValue 1 5 (toNumeric (Row.get (stripKeysRow r) "Customer_Satisfaction")) := by
  have hCS1 : "Customer_Satisfaction" ∈ colsAfterCat cols :=
    (mem_colsAfterCat_of_ne (by decide) cols).mpr hCS
  have hCS2 : "Customer_Satisfaction" ∈ colsAfterEmail cols :=
    (mem_colsAfterEmail_of_ne (by decide) (by decide) cols).mpr hCS
  unfold preQualityRow
  rw [get_titleRow_ne _ _ "Customer_Satisfaction" (by decide),
    get_satRow_cs, if_pos hCS2,
    get_emailRow_ne _ _ "Customer_Satisfaction" (by decide) (by decide),
    get_harmRow_ne _ _ "Customer_Satisfaction" (by decide) (by decide) (by decide),
    get_dateRow_ne _ _ "Customer_Satisfaction" (by decide),
    get_numRow _ _ "Customer_Satisfaction" (by decide), if_pos hCS1,
    get_catRow_ne _ "Customer_Satisfaction" (by decide),
    get_textRow_ne _ _ "Customer_Satisfaction" (by decide)]

theorem get_preQuality_pm (cols : List String) (r : Row) (hPM : "Payment_Mode" ∈ cols) :
    Row.get (preQualityRow cols r) "Payment_Mode"
      = harmonizeValue PAYMENT_MODE_MAP
          (normalizeValue (Row.get (stripKeysRow r) "Payment_Mode")) := by
  have hPM' : "Payment_Mode" ∈ colsAfterCat cols :=
    (mem_colsAfterCat_of_ne (by decide) cols).mpr hPM
  unfold preQualityRow
  rw [get_titleRow_ne _ _ "Payment_Mode" (by decide),
    get_satRow_ne _ _ "Payment_Mode" (by decide),
    get_emailRow_ne _ _ "Payment_Mode" (by decide) (by decide),
    get_harmRow_pm, if_pos hPM',
    get_dateRow_ne _ _ "Payment_Mode" (by decide),
    get_numRow_ne _ _ "Payment_Mode" (by decide),
    get_catRow_ne _ "Payment_Mode" (by decide),
    get_textRow _ _ "Payment_Mode" (by decide), if_pos hPM]

theorem get_preQuality_ds (cols : List String) (r : Row)
    (hDS : "Delivery_Status" ∈ cols) :
    Row.get (preQualityRow cols r) "Delivery_Status"
      = harmonizeValue DELIVERY_STATUS_MAP
          (normalizeValue (Row.get (stripKeysRow r) "Delivery_Status")) := by
  have hDS' : "Delivery_Status" ∈ colsAfterCat cols :=
    (mem_colsAfterCat_of_ne (by decide) cols).mpr hDS
  unfold preQualityRow
  rw [get_titleRow_ne _ _ "Delivery_Status" (by decide),
    get_satRow_ne _ _ "Delivery_Status" (by decide),
    get_emailRow_ne _ _ "Delivery_Status" (by decide) (by decide),
    get_harmRow_ds, if_pos hDS',
    get_dateRow_ne _ _ "Delivery_Status" (by decide),
    get_numRow_ne _ _ "Delivery_Status" (by decide),
    get_catRow_ne _ "Delivery_Status" (by decide),
    get_textRow _ _ "Delivery_Status" (by decide), if_pos hDS]

theorem get_preQuality_g (cols : List String) (r : Row) (hG : "Gender" ∈ cols) :
    Row.get (preQualityRow cols r) "Gender"
      = harmonizeValue GENDER_MAP
          (normalizeValue (Row.get (stripKeysRow r) "Gender")) := by
  have hG' : "Gender" ∈ colsAfterCat cols :=
    (mem_colsAfterCat_of_ne (by decide) cols).mpr hG
  unfold preQualityRow
  rw [get_titleRow_ne _ _ "Gender" (by decide),
    get_satRow_ne _ _ "Gender" (by decide),
    get_emailRow_ne _ _ "Gender" (by decide) (by decide),
    get_harmRow_g, if_pos hG',
    get_dateRow_ne _ _ "Gender" (by decide),
    get_numRow_ne _ _ "Gender" (by decide),
    get_catRow_ne _ "Gender" (by decide),
    get_textRow _ _ "Gender" (by decide), if_pos hG]

theorem get_preQuality_pc (cols : List String) (r : Row)
    (hPC : "Product_Category" ∈ cols) :
    Row.get (preQualityRow cols r) "Product_Category"
      = match lastMatchCat (textRow cols (stripKeysRow r)) with
        | some cat => .str cat
        | none => normalizeValue (Row.get (stripKeysRow r) "Product_Category") := by
  unfold preQualityRow
  rw [get_titleRow_ne _ _ "Product_Category" (by decide),
    get_satRow_ne _ _ "Product_Category" (by decide),
    get_emailRow_ne _ _ "Product_Category" (by decide) (by decide),
    get_harmRow_ne _ _ "Product_Category" (by decide) (by decide) (by decide),
    get_dateRow_ne _ _ "Product_Category" (by decide),
    get_numRow_ne _ _ "Product_Category" (by decide),
    get_catRow_pc,
    get_textRow _ _ "Product_Category" (by decide), if_pos hPC]

theorem toNumeric_num_or_na (v : Value) :
    (∃ q, toNumeric v = Value.num q) ∨ toNumeric v = Value.na := by
  cases v with
  | str s =>
    cases hp : pyFloat s with
    | none => exact Or.inr (by simp [toNumeric, hp])
    | some q => exact Or.inl ⟨q, by simp [toNumeric, hp]⟩
  | num q => exact Or.inl ⟨q, rfl⟩
  | bool b => exact Or.inl ⟨if b then 1 else 0, rfl⟩
  | date y m d => exact Or.inr rfl
  | na => exact Or.inr rfl

/-! ## Key-stripping invariance

Step 1 strips every key, and later steps only write literal (already
stripped) column names, so on any pipeline output row the key-stripping
of a second run is the identity. -/

theorem keysStripped_set (r : Row) (c : String) (v : Value)
    (hr : keysStripped r) (hc : pyStrip c = c) : keysStripped (Row.set r c v) := by
  induction r with
  | nil =>
    intro p hp
    rcases List.mem_singleton.mp hp with rfl
    exact hc
  | cons q t ih =>
    show keysStripped (if q.1 = c then (c, v) :: t else q :: Row.set t c v)
    by_cases hq : q.1 = c
    · rw [if_pos hq]
      intro p hp
      rcases List.mem_cons.mp hp with rfl | hp
      · exact hc
      · exact hr p (List.mem_cons_of_mem q hp)
    · rw [if_neg hq]
      intro p hp
      rcases List.mem_cons.mp hp with rfl | hp
      · exact hr p (List.mem_cons_self p t)
      · exact ih (fun p' hp' => hr p' (List.mem_cons_of_mem q hp')) p hp

theorem keysStripped_stripKeysRow (r : Row) : keysStripped (stripKeysRow r) := by
  intro p hp
  obtain ⟨q, _, rfl⟩ := List.mem_map.mp hp
  exact pyStrip_idem q.1

theorem keysStripped_condColsFold (cs : List String) (g : Value → Value)
    (cols : List String) (r : Row) (hr : keysStripped r)
    (hcs : ∀ c ∈ cs, pyStrip c = c) :
    keysStripped (condColsFold cs g cols r) := by
  induction cs generalizing r with
  | nil => exact hr
  | cons a t ih =>
    have step : condColsFold (a :: t) g cols r
        = condColsFold t g cols (if a ∈ cols then Row.set r a (g (Row.get r a)) else r) := rfl
    rw [step]
    refine ih _ ?_ (fun c hc => hcs c (List.mem_cons_of_mem a hc))
    by_cases h : a ∈ cols
    · rw [if_pos h]
      exact keysStripped_set _ _ _ hr (hcs a (List.mem_cons_self a t))
    · rw [if_neg h]
      exact hr

theorem keysStripped_catFold (L : List (String × String)) (r : Row)
    (hr : keysStripped r) :
    keysStripped (L.foldl
      (fun acc kc => if catMask kc.1 acc then Row.set acc "Product_Category" (.str kc.2) else acc)
      r) := by
  induction L generalizing r with
  | nil => exact hr
  | cons kc t ih =>
    have step : (kc :: t).foldl
        (fun acc kc => if catMask kc.1 acc then Row.set acc "Product_Category" (.str kc.2) else acc) r
      = t.foldl
        (fun acc kc => if catMask kc.1 acc then Row.set acc "Product_Category" (.str kc.2) else acc)
        (if catMask kc.1 r then Row.set r "Product_Category" (.str kc.2) else r) := rfl
    rw [step]
    refine ih _ ?_
    by_cases hm : catMask kc.1 r = true
    · rw [if_pos hm]
      exact keysStripped_set _ _ _ hr (by decide)
    · rw [if_neg hm]
      exact hr

theorem keysStripped_harmRow (cols : List String) (r : Row) (hr : keysStripped r) :
    keysStripped (harmRow cols r) := by
  simp only [harmRow]
  split_ifs <;>
    (repeat first
      | exact hr
      | refine keysStripped_set _ _ _ ?_ (by decide))

theorem keysStripped_emailRow (cols : List String) (r : Row) (hr : keysStripped r) :
    keysStripped (emailRow cols r) := by
  simp only [emailRow]
  split_ifs <;>
    (repeat first
      | exact hr
      | refine keysStripped_set _ _ _ ?_ (by decide))

theorem keysStripped_satRow (cols : List String) (r : Row) (hr : keysStripped r) :
    keysStripped (satRow cols r) := by
  unfold satRow
  split_ifs <;>
    (repeat first
      | exact hr
      | refine keysStripped_set _ _ _ ?_ (by decide))

theorem keysStripped_dqAppend (r : Row) (msg : String) (hr : keysStripped r) :
    keysStripped (dqAppend r msg) := by
  unfold dqAppend
  split <;>
    first
      | exact hr
      | exact keysStripped_set _ _ _ hr (by decide)

theorem keysStripped_qualityRow (cols : List String) (r : Row) (hr : keysStripped r) :
    keysStripped (qualityRow cols r) := by
  simp only [qualityRow]
  split_ifs <;>
    (repeat first
      | exact hr
      | refine keysStripped_set _ _ _ ?_ (by decide)
      | refine keysStripped_dqAppend _ _ ?_)

theorem keysStripped_cleanRowFun (cols : List String) (r : Row) :
    keysStripped (cleanRowFun cols r) := by
  unfold cleanRowFun preQualityRow textRow numRow dateRow titleRow catRow
  refine keysStripped_qualityRow _ _
    (keysStripped_condColsFold _ _ _ _
      (keysStripped_satRow _ _
        (keysStripped_emailRow _ _
          (keysStripped_harmRow _ _
            (keysStripped_condColsFold _ _ _ _
              (keysStripped_condColsFold _ _ _ _
                (keysStripped_catFold _ _
                  (keysStripped_condColsFold _ _ _ _
                    (keysStripped_stripKeysRow r) (by decide)))
                (by decide))
              (by decide)))))
      (by decide))

theorem stripKeysRow_eq_self : ∀ (r : Row), keysStripped r → stripKeysRow r = r := by
  intro r
  induction r with
  | nil => intro _; rfl
  | cons p t ih =>
    intro hr
    show (pyStrip p.1, p.2) :: stripKeysRow t = p :: t
    rw [ih (fun q hq => hr q (List.mem_cons_of_mem p hq))]
    have h1 := hr p (List.mem_cons_self p t)
    exact congrArg (· :: t) (Prod.ext h1 rfl)

theorem lastMatchCat_congr (rA rB : Row)
    (hpn : Row.get rA "Product_Name" = Row.get rB "Product_Name") :
    lastMatchCat rA = lastMatchCat rB := by
  unfold lastMatchCat
  rw [List.filter_congr
    (fun kc _ => show catMask kc.1 rA = catMask kc.1 rB by unfold catMask; rw [hpn])]

theorem mem_finalCols_of_mem (c : String) (cols : List String) (hc : c ∈ cols) :
    c ∈ finalCols cols := by
  unfold finalCols colsAfterEmail colsAfterCat
  split <;> simp [mem_addColName, hc]

theorem strip_fixed_of_mem_strip (c : String) (L : List String)
    (hc : c ∈ L.map pyStrip) : pyStrip c = c := by
  obtain ⟨x, _, rfl⟩ := List.mem_map.mp hc
  exact pyStrip_idem x

theorem mem_strip_finalCols (c : String) (cols : List String)
    (hc : c ∈ cols) (hfix : pyStrip c = c) :
    c ∈ (finalCols cols).map pyStrip :=
  List.mem_map.mpr ⟨c, mem_finalCols_of_mem c cols hc, hfix⟩

/-! ## Claims -/

/-- **C1** (counterexample to the claim as stated).  The claim says the
cleaning pipeline never raises because a declared column is absent.  On a
dataset without a `Product_Name` column the unguarded
`df["Product_Name"]` access of the category-correction step raises a
`KeyError` (modelled as `none`). -/
theorem C1_cex_missing_product_name_errors :
    clean_dataset
        (DataFrame.mk ["Customer_Name"] [[("Customer_Name", Value.str "Ann")]])
      = none := by
  rfl

/-- **C1** (amended).  All presence-guarded steps are no-ops for absent
columns and never raise (an absent `Gender` column, the specification's
example, has zero effect: it is absent from the output too), but category
correction is unguarded: the pipeline errors exactly when `Product_Name`
is absent after column-name stripping.  (When only `Product_Category` is
absent there is no error: the column is created by setitem-enlargement.) -/
theorem C1_amended_error_iff_product_name_absent (df : DataFrame) :
    (clean_dataset df = none ↔ "Product_Name" ∉ df.cols.map pyStrip)
    ∧ (∀ out, clean_dataset df = some out → "Gender" ∉ df.cols.map pyStrip →
        "Gender" ∉ out.cols) := by
  constructor
  · exact clean_dataset_none_iff df
  · intro out hout hG
    rw [clean_dataset_eq] at hout
    by_cases hPN : "Product_Name" ∈ df.cols.map pyStrip
    · rw [if_pos hPN] at hout
      obtain rfl := (Option.some.inj hout).symm
      intro hmem
      unfold finalCols at hmem
      rw [mem_addColName] at hmem
      rcases hmem with hmem | h
      · rw [mem_colsAfterEmail_of_ne (by decide) (by decide)] at hmem
        exact hG hmem
      · exact absurd h (by decide)
    · rw [if_neg hPN] at hout
      cases hout

/-- Witness for C1: on a dataset with columns `Product_Name, City` and no
`Gender`, the pipeline succeeds and its output has no `Gender` column. -/
theorem C1_amended_witness :
    "Gender" ∉ (DataFrame.mk
      ["Product_Name", "City", "Product_Category", "Data_Quality_Issues"]
      ([] : List Row)).cols :=
  (C1_amended_error_iff_product_name_absent
      (DataFrame.mk ["Product_Name", "City"] ([] : List Row))).2
    (DataFrame.mk ["Product_Name", "City", "Product_Category", "Data_Quality_Issues"]
      ([] : List Row))
    (by rfl) (by decide)

/-- **C2**.  A row with empty `Customer_Name`, email `"not-an-email"` and
`Purchase_Amount = -5` gets exactly
`"Missing Customer Name; Invalid Email; Invalid Purchase Amount; "` in
`Data_Quality_Issues` — the three messages in the fixed check order with
that exact punctuation. -/
theorem C2_quality_flag_exact_string (df : DataFrame)
    (hPN : "Product_Name" ∈ df.cols.map pyStrip)
    (hCN : "Customer_Name" ∈ df.cols.map pyStrip)
    (hE : "Email" ∈ df.cols.map pyStrip)
    (hPA : "Purchase_Amount" ∈ df.cols.map pyStrip)
    (k : Nat) (r : Row) (hr : df.rows[k]? = some r)
    (hvCN : Row.get (stripKeysRow r) "Customer_Name" = Value.str "")
    (hvE : Row.get (stripKeysRow r) "Email" = Value.str "not-an-email")
    (hvPA : Row.get (stripKeysRow r) "Purchase_Amount" = Value.num (-5)) :
    cellAt (clean_dataset df) k "Data_Quality_Issues"
      = some (Value.str
          "Missing Customer Name; Invalid Email; Invalid Purchase Amount; ") := by
  have hCN2 : "Customer_Name" ∈ colsAfterEmail (df.cols.map pyStrip) :=
    (mem_colsAfterEmail_of_ne (by decide) (by decide) _).mpr hCN
  have hE2 : "Email" ∈ colsAfterEmail (df.cols.map pyStrip) :=
    (mem_colsAfterEmail_of_ne (by decide) (by decide) _).mpr hE
  have hPA2 : "Purchase_Amount" ∈ colsAfterEmail (df.cols.map pyStrip) :=
    (mem_colsAfterEmail_of_ne (by decide) (by decide) _).mpr hPA
  rw [cellAt_clean df hPN k r hr]
  unfold cleanRowFun
  rw [get_qualityRow_dq,
    get_preQuality_cn _ _ hCN, get_preQuality_ev _ _ hE, get_preQuality_pa _ _ hPA,
    hvCN, hvE, hvPA, if_pos hCN2, if_pos hE2, if_pos hPA2]
  decide

/-- Witness for C2 at a concrete one-row dataset. -/
theorem C2_witness :
    cellAt (clean_dataset (DataFrame.mk
        ["Product_Name", "Customer_Name", "Email", "Purchase_Amount"]
        [[("Product_Name", Value.str "Pen"), ("Customer_Name", Value.str ""),
          ("Email", Value.str "not-an-email"), ("Purchase_Amount", Value.num (-5))]]))
      0 "Data_Quality_Issues"
      = some (Value.str
          "Missing Customer Name; Invalid Email; Invalid Purchase Amount; ") :=
  C2_quality_flag_exact_string
    (DataFrame.mk
      ["Product_Name", "Customer_Name", "Email", "Purchase_Amount"]
      [[("Product_Name", Value.str "Pen"), ("Customer_Name", Value.str ""),
        ("Email", Value.str "not-an-email"), ("Purchase_Amount", Value.num (-5))]])
    (by decide) (by decide) (by decide) (by decide) 0 _ rfl rfl rfl rfl

/-- **C3** (counterexample to the claim as stated).  The claim says a row
whose customer-name value is empty or missing (null) gets
`"Missing Customer Name; "` appended.  A row whose `Customer_Name` input
cell is missing (NaN) is NOT flagged: text normalisation stringifies the
null to `"nan"` first, so the check sees a non-empty string and the
cleaned `Data_Quality_Issues` stays `""`. -/
theorem C3_cex_null_name_not_flagged :
    Row.get ([("Product_Name", Value.str "Pen"), ("Customer_Name", Value.na)] : Row)
        "Customer_Name" = Value.na
    ∧ cellAt (clean_dataset (DataFrame.mk ["Product_Name", "Customer_Name"]
        [[("Product_Name", Value.str "Pen"), ("Customer_Name", Value.na)]]))
        0 "Data_Quality_Issues" = some (Value.str "") :=
  ⟨rfl, rfl⟩

/-- **C3** (amended).  With the customer-name column present, the
`"Missing Customer Name; "` flag is prepended to `Data_Quality_Issues`
exactly when the value AFTER text normalisation is the empty string; an
input null has been stringified to `"nan"` by then and is not flagged
(the `isna()` branch of the check is unreachable when the column is
present).  The remainder of the quality string is the concatenation of
the other two flags. -/
theorem C3_amended_flag_iff_normalized_empty (df : DataFrame)
    (hPN : "Product_Name" ∈ df.cols.map pyStrip)
    (hCN : "Customer_Name" ∈ df.cols.map pyStrip)
    (k : Nat) (r : Row) (hr : df.rows[k]? = some r) :
    ∃ rest : String,
      cellAt (clean_dataset df) k "Data_Quality_Issues"
        = some (Value.str
            ((if pyStrip (astypeStr (Row.get (stripKeysRow r) "Customer_Name")) = ""
              then "Missing Customer Name; " else "") ++ rest))
      ∧ (rest = "" ∨ rest = "Invalid Email; " ∨ rest = "Invalid Purchase Amount; "
          ∨ rest = "Invalid Email; Invalid Purchase Amount; ") := by
  have hCN2 : "Customer_Name" ∈ colsAfterEmail (df.cols.map pyStrip) :=
    (mem_colsAfterEmail_of_ne (by decide) (by decide) _).mpr hCN
  rw [cellAt_clean df hPN k r hr]
  unfold cleanRowFun
  rw [get_qualityRow_dq, get_preQuality_cn _ _ hCN, if_pos hCN2]
  have hC : (missNameValue (normalizeValue
        (Row.get (stripKeysRow r) "Customer_Name")) = true)
      = (pyStrip (astypeStr (Row.get (stripKeysRow r) "Customer_Name")) = "") := by
    show ((pyStrip (astypeStr (Row.get (stripKeysRow r) "Customer_Name"))).isEmpty = true) = _
    exact propext (String.isEmpty_iff _)
  simp only [hC, String.append_assoc]
  refine ⟨_, rfl, ?_⟩
  split_ifs <;> simp

/-- Witness for C3 (amended): an input `Customer_Name = ""` (together with
no email and no purchase-amount column) yields exactly the single flag. -/
theorem C3_witness :
    cellAt (clean_dataset (DataFrame.mk ["Product_Name", "Customer_Name"]
        [[("Product_Name", Value.str "Pen"), ("Customer_Name", Value.str "")]]))
      0 "Data_Quality_Issues"
      = some (Value.str "Missing Customer Name; ") := by
  obtain ⟨rest, hmain, hrest⟩ := C3_amended_flag_iff_normalized_empty
    (DataFrame.mk ["Product_Name", "Customer_Name"]
      [[("Product_Name", Value.str "Pen"), ("Customer_Name", Value.str "")]])
    (by decide) (by decide) 0 _ rfl
  have hval : cellAt (clean_dataset (DataFrame.mk ["Product_Name", "Customer_Name"]
      [[("Product_Name", Value.str "Pen"), ("Customer_Name", Value.str "")]]))
      0 "Data_Quality_Issues" = some (Value.str "Missing Customer Name; ") := rfl
  rcases hrest with rfl | rfl | rfl | rfl
  · exact hmain.trans (by decide)
  all_goals exact absurd (hval.symm.trans hmain) (by decide)

/-- **C4**.  For a row whose email value is the non-empty string `s`, the
cleaned dataset's `Email_Valid` flag equals `validEmail` (the direct
embedding of the anchored pattern
`^[a-zA-Z0-9._%+-]+@[a-zA-Z0-9.-]+\.[a-zA-Z]{2,}$`) applied to the
lower-cased, trimmed email value: the flag is true iff that value matches
the pattern. -/
theorem C4_email_valid_iff_regex (df : DataFrame)
    (hPN : "Product_Name" ∈ df.cols.map pyStrip)
    (hE : "Email" ∈ df.cols.map pyStrip)
    (k : Nat) (r : Row) (hr : df.rows[k]? = some r)
    (s : String) (hs : Row.get (stripKeysRow r) "Email" = Value.str s)
    (_hne : s ≠ "") :
    cellAt (clean_dataset df) k "Email_Valid"
      = some (Value.bool (validEmail (pyLower (pyStrip s)))) := by
  rw [cellAt_clean df hPN k r hr]
  unfold cleanRowFun
  rw [get_qualityRow_ne _ _ "Email_Valid" (by decide),
    get_preQuality_ev _ _ hE, hs]
  show some (Value.bool (validEmail (pyStrip (pyLower (pyStrip s))))) = _
  rw [pyStrip_lower_strip]

/-- Witness for C4 at a concrete one-row dataset. -/
theorem C4_witness :
    cellAt (clean_dataset (DataFrame.mk ["Product_Name", "Email"]
        [[("Product_Name", Value.str "Pen"),
          ("Email", Value.str " John.Doe@Example.COM ")]]))
      0 "Email_Valid"
      = some (Value.bool (validEmail (pyLower (pyStrip " John.Doe@Example.COM ")))) :=
  C4_email_valid_iff_regex
    (DataFrame.mk ["Product_Name", "Email"]
      [[("Product_Name", Value.str "Pen"),
        ("Email", Value.str " John.Doe@Example.COM ")]])
    (by decide) (by decide) 0 _ rfl " John.Doe@Example.COM " rfl (by decide)

/-- **C5**.  With the satisfaction column present, every cleaned
`Customer_Satisfaction` value is missing or lies in [1, 5]: a raw 7 clips
to 5, a raw 0 clips to 1, a missing value stays missing, and a value
already in [1, 5] is unchanged. -/
theorem C5_satisfaction_clipped (df : DataFrame)
    (hPN : "Product_Name" ∈ df.cols.map pyStrip)
    (hCS : "Customer_Satisfaction" ∈ df.cols.map pyStrip)
    (k : Nat) (r : Row) (hr : df.rows[k]? = some r) :
    (cellAt (clean_dataset df) k "Customer_Satisfaction" = some Value.na
      ∨ ∃ q : Rat, cellAt (clean_dataset df) k "Customer_Satisfaction"
          = some (Value.num q) ∧ 1 ≤ q ∧ q ≤ 5)
    ∧ (Row.get (stripKeysRow r) "Customer_Satisfaction" = Value.num 7 →
        cellAt (clean_dataset df) k "Customer_Satisfaction" = some (Value.num 5))
    ∧ (Row.get (stripKeysRow r) "Customer_Satisfaction" = Value.num 0 →
        cellAt (clean_dataset df) k "Customer_Satisfaction" = some (Value.num 1))
    ∧ (Row.get (stripKeysRow r) "Customer_Satisfaction" = Value.na →
        cellAt (clean_dataset df) k "Customer_Satisfaction" = some Value.na)
    ∧ (∀ q : Rat, Row.get (stripKeysRow r) "Customer_Satisfaction" = Value.num q →
        1 ≤ q → q ≤ 5 →
        cellAt (clean_dataset df) k "Customer_Satisfaction" = some (Value.num q)) := by
  have hmain : cellAt (clean_dataset df) k "Customer_Satisfaction"
      = some (clipValue 1 5
          (toNumeric (Row.get (stripKeysRow r) "Customer_Satisfaction"))) := by
    rw [cellAt_clean df hPN k r hr]
    unfold cleanRowFun
    rw [get_qualityRow_ne _ _ "Customer_Satisfaction" (by decide),
      get_preQuality_cs _ _ hCS]
  refine ⟨?_, ?_, ?_, ?_, ?_⟩
  · rw [hmain]
    rcases toNumeric_num_or_na
        (Row.get (stripKeysRow r) "Customer_Satisfaction") with ⟨q, hq⟩ | hq
    · exact Or.inr ⟨min 5 (max 1 q), by rw [hq]; rfl,
        le_min (by norm_num) (le_max_left 1 q), min_le_left 5 _⟩
    · exact Or.inl (by rw [hq]; rfl)
  · intro h7
    rw [hmain, h7]
    show some (Value.num (min 5 (max 1 7))) = _
    rw [max_eq_right (by norm_num : (1 : Rat) ≤ 7),
      min_eq_left (by norm_num : (5 : Rat) ≤ 7)]
  · intro h0
    rw [hmain, h0]
    show some (Value.num (min 5 (max 1 0))) = _
    rw [max_eq_left (by norm_num : (0 : Rat) ≤ 1),
      min_eq_right (by norm_num : (1 : Rat) ≤ 5)]
  · intro hna
    rw [hmain, hna]
    rfl
  · intro q hq h1q hq5
    rw [hmain, hq]
    show some (Value.num (min 5 (max 1 q))) = _
    rw [max_eq_right h1q, min_eq_right hq5]

/-- Witness for C5: a raw satisfaction of 7 comes out as 5. -/
theorem C5_witness :
    cellAt (clean_dataset (DataFrame.mk ["Product_Name", "Customer_Satisfaction"]
        [[("Product_Name", Value.str "Pen"),
          ("Customer_Satisfaction", Value.num 7)]]))
      0 "Customer_Satisfaction" = some (Value.num 5) :=
  (C5_satisfaction_clipped
    (DataFrame.mk ["Product_Name", "Customer_Satisfaction"]
      [[("Product_Name", Value.str "Pen"), ("Customer_Satisfaction", Value.num 7)]])
    (by decide) (by decide) 0 _ rfl).2.1 rfl

/-- **C8**.  For each of the payment-mode, delivery-status and gender
columns that is present: when the lower-casing of the (trimmed) value is a
key of the respective fixed map the cell becomes the map's canonical
label, and otherwise the trimmed value is kept exactly (original case). -/
theorem C8_harmonisation_lookup (df : DataFrame)
    (hPN : "Product_Name" ∈ df.cols.map pyStrip)
    (k : Nat) (r : Row) (hr : df.rows[k]? = some r) :
    ("Payment_Mode" ∈ df.cols.map pyStrip → ∀ s : String,
        pyStrip (astypeStr (Row.get (stripKeysRow r) "Payment_Mode")) = s →
        cellAt (clean_dataset df) k "Payment_Mode"
          = some (match PAYMENT_MODE_MAP.lookup (pyLower s) with
              | some lab => Value.str lab
              | none => Value.str s))
    ∧ ("Delivery_Status" ∈ df.cols.map pyStrip → ∀ s : String,
        pyStrip (astypeStr (Row.get (stripKeysRow r) "Delivery_Status")) = s →
        cellAt (clean_dataset df) k "Delivery_Status"
          = some (match DELIVERY_STATUS_MAP.lookup (pyLower s) with
              | some lab => Value.str lab
              | none => Value.str s))
    ∧ ("Gender" ∈ df.cols.map pyStrip → ∀ s : String,
        pyStrip (astypeStr (Row.get (stripKeysRow r) "Gender")) = s →
        cellAt (clean_dataset df) k "Gender"
          = some (match GENDER_MAP.lookup (pyLower s) with
              | some lab => Value.str lab
              | none => Value.str s)) := by
  refine ⟨?_, ?_, ?_⟩
  · intro hmem s hs
    rw [cellAt_clean df hPN k r hr]
    unfold cleanRowFun
    rw [get_qualityRow_ne _ _ "Payment_Mode" (by decide),
      get_preQuality_pm _ _ hmem,
      show normalizeValue (Row.get (stripKeysRow r) "Payment_Mode") = Value.str s from
        by unfold normalizeValue; rw [hs]]
    rfl
  · intro hmem s hs
    rw [cellAt_clean df hPN k r hr]
    unfold cleanRowFun
    rw [get_qualityRow_ne _ _ "Delivery_Status" (by decide),
      get_preQuality_ds _ _ hmem,
      show normalizeValue (Row.get (stripKeysRow r) "Delivery_Status") = Value.str s from
        by unfold normalizeValue; rw [hs]]
    rfl
  · intro hmem s hs
    rw [cellAt_clean df hPN k r hr]
    unfold cleanRowFun
    rw [get_qualityRow_ne _ _ "Gender" (by decide),
      get_preQuality_g _ _ hmem,
      show normalizeValue (Row.get (stripKeysRow r) "Gender") = Value.str s from
        by unfold normalizeValue; rw [hs]]
    rfl

/-- Witness for C8: `" UPI "` harmonises to `"UPI"`, and the unknown token
`"Bitcoin"` is kept with its original case. -/
theorem C8_witness :
    cellAt (clean_dataset (DataFrame.mk ["Product_Name", "Payment_Mode"]
        [[("Product_Name", Value.str "Pen"), ("Payment_Mode", Value.str " UPI ")],
         [("Product_Name", Value.str "Pen"), ("Payment_Mode", Value.str "Bitcoin")]]))
      0 "Payment_Mode" = some (Value.str "UPI")
    ∧ cellAt (clean_dataset (DataFrame.mk ["Product_Name", "Payment_Mode"]
        [[("Product_Name", Value.str "Pen"), ("Payment_Mode", Value.str " UPI ")],
         [("Product_Name", Value.str "Pen"), ("Payment_Mode", Value.str "Bitcoin")]]))
      1 "Payment_Mode" = some (Value.str "Bitcoin") :=
  ⟨(C8_harmonisation_lookup
      (DataFrame.mk ["Product_Name", "Payment_Mode"]
        [[("Product_Name", Value.str "Pen"), ("Payment_Mode", Value.str " UPI ")],
         [("Product_Name", Value.str "Pen"), ("Payment_Mode", Value.str "Bitcoin")]])
      (by decide) 0 _ rfl).1 (by decide) "UPI" (by decide),
   (C8_harmonisation_lookup
      (DataFrame.mk ["Product_Name", "Payment_Mode"]
        [[("Product_Name", Value.str "Pen"), ("Payment_Mode", Value.str " UPI ")],
         [("Product_Name", Value.str "Pen"), ("Payment_Mode", Value.str "Bitcoin")]])
      (by decide) 1 _ rfl).1 (by decide) "Bitcoin" (by decide)⟩

/-- **C10** (implicit).  For every declared text column present, a missing
(NaN) input cell is stringified to the literal `"nan"` by text
normalisation — it is neither kept missing nor mapped to the empty
string — and the later steps treat it as an ordinary non-empty string
(witnessed end to end on the Gender column, where `"nan"` misses the
harmonisation map and survives to the output unchanged). -/
theorem C10_null_text_becomes_nan (df : DataFrame)
    (hPN : "Product_Name" ∈ df.cols.map pyStrip)
    (k : Nat) (r : Row) (hr : df.rows[k]? = some r) :
    (∀ col, col ∈ TEXT_COLUMNS → col ∈ df.cols.map pyStrip →
        Row.get (stripKeysRow r) col = Value.na →
        Row.get (textRow (df.cols.map pyStrip) (stripKeysRow r)) col
          = Value.str "nan")
    ∧ ("Gender" ∈ df.cols.map pyStrip →
        Row.get (stripKeysRow r) "Gender" = Value.na →
        cellAt (clean_dataset df) k "Gender" = some (Value.str "nan")) := by
  constructor
  · intro col hcol hmem hna
    rw [get_textRow _ _ col hcol, if_pos hmem, hna]
    rfl
  · intro hG hna
    rw [cellAt_clean df hPN k r hr]
    unfold cleanRowFun
    rw [get_qualityRow_ne _ _ "Gender" (by decide), get_preQuality_g _ _ hG, hna]
    rfl

/-- Witness for C10: a missing Gender cell leaves the pipeline as the
string `"nan"`. -/
theorem C10_witness :
    cellAt (clean_dataset (DataFrame.mk ["Product_Name", "Gender"]
        [[("Product_Name", Value.str "Pen"), ("Gender", Value.na)]]))
      0 "Gender" = some (Value.str "nan") :=
  (C10_null_text_becomes_nan
    (DataFrame.mk ["Product_Name", "Gender"]
      [[("Product_Name", Value.str "Pen"), ("Gender", Value.na)]])
    (by decide) 0 _ rfl).2 (by decide) rfl

/-- **C6**.  Category correction sets the category cell to the category of
the LAST `(keyword, category)` pair in declared iteration order whose
keyword is a substring of the lower-cased product name; a row matching no
keyword keeps its (text-normalised) original category value unchanged.
In particular a product named `"Gaming Laptop Pro"` is assigned
`"Electronics"` regardless of its original category (see the witness). -/
theorem C6_last_matching_keyword_wins (df : DataFrame)
    (hPN : "Product_Name" ∈ df.cols.map pyStrip)
    (hPC : "Product_Category" ∈ df.cols.map pyStrip)
    (k : Nat) (r : Row) (hr : df.rows[k]? = some r)
    (name : String)
    (hname : Row.get (stripKeysRow r) "Product_Name" = Value.str name) :
    cellAt (clean_dataset df) k "Product_Category"
      = some (match ((CATEGORY_MAPPINGS.filter
            (fun kc => strContains (pyLower (pyStrip name)) kc.1)).map
              Prod.snd).getLast? with
          | some cat => Value.str cat
          | none => normalizeValue (Row.get (stripKeysRow r) "Product_Category")) := by
  rw [cellAt_clean df hPN k r hr]
  unfold cleanRowFun
  rw [get_qualityRow_ne _ _ "Product_Category" (by decide),
    get_preQuality_pc _ _ hPC]
  have hmask : ∀ key, catMask key (textRow (df.cols.map pyStrip) (stripKeysRow r))
      = strContains (pyLower (pyStrip name)) key := by
    intro key
    unfold catMask
    rw [get_textRow _ _ "Product_Name" (by decide), if_pos hPN, hname]
    rfl
  unfold lastMatchCat
  rw [List.filter_congr (fun x _ => hmask x.1)]

/-- Witness for C6: `"Gaming Laptop Pro"` is reassigned to
`"Electronics"` even though its original category was `"Toys"`. -/
theorem C6_witness :
    cellAt (clean_dataset (DataFrame.mk ["Product_Name", "Product_Category"]
        [[("Product_Name", Value.str "Gaming Laptop Pro"),
          ("Product_Category", Value.str "Toys")]]))
      0 "Product_Category" = some (Value.str "Electronics") := by
  have h := C6_last_matching_keyword_wins
    (DataFrame.mk ["Product_Name", "Product_Category"]
      [[("Product_Name", Value.str "Gaming Laptop Pro"),
        ("Product_Category", Value.str "Toys")]])
    (by decide) (by decide) 0 _ rfl "Gaming Laptop Pro" rfl
  rw [h]
  rfl

/-- **C9**.  The pipeline mutates only a private copy: in the heap model,
after a successful `clean_dataset_heap` call the caller's cell `i` still
holds the original dataset unchanged, the returned reference `j` is a
fresh cell distinct from `i`, and cell `j` holds `clean_dataset` of the
original. -/
theorem C9_original_unchanged (h : List DataFrame) (i : Nat)
    (h' : List DataFrame) (j : Nat)
    (hrun : clean_dataset_heap h i = some (h', j)) :
    h'[i]? = h[i]? ∧ j ≠ i
      ∧ ∃ df out, h[i]? = some df ∧ clean_dataset df = some out
          ∧ h'[j]? = some out := by
  unfold clean_dataset_heap at hrun
  cases hg : h[i]? with
  | none =>
    rw [hg] at hrun
    cases hrun
  | some df =>
    rw [hg] at hrun
    have hrun' : (match clean_dataset df with
        | none => none
        | some out => some ((h ++ [df]).set h.length out, h.length)) = some (h', j) := hrun
    cases hc : clean_dataset df with
    | none =>
      rw [hc] at hrun'
      cases hrun'
    | some out =>
      rw [hc] at hrun'
      have hpair := Option.some.inj hrun'
      rw [Prod.ext_iff] at hpair
      obtain ⟨hh', hj⟩ := hpair
      subst hh'
      subst hj
      have hi_lt : i < h.length := by
        by_contra hge
        rw [List.getElem?_eq_none (Nat.le_of_not_lt hge)] at hg
        cases hg
      refine ⟨?_, Nat.ne_of_gt hi_lt, df, out, rfl, hc, ?_⟩
      · rw [List.getElem?_set_ne (Nat.ne_of_gt hi_lt),
          List.getElem?_append_left hi_lt]
        exact hg
      · rw [List.getElem?_set_self (by simp)]

/-- **C7** (counterexample to the claim as stated).  On a dataset without
a `Product_Category` column, category correction creates the column by
setitem-enlargement, leaving NaN on rows matching no keyword.  A second
run of the pipeline stringifies that NaN to `"nan"` in text
normalisation, so the category assignments of two runs differ from those
of one run on such a row: after one run the `"Pen"` row's category is
missing, after two it is the string `"nan"`. -/
theorem C7_cex_double_clean_category_differs :
    catAt (clean_dataset (DataFrame.mk ["Product_Name"]
        [[("Product_Name", Value.str "Laptop")], [("Product_Name", Value.str "Pen")]]))
      1 = some Value.na
    ∧ catAt ((clean_dataset (DataFrame.mk ["Product_Name"]
        [[("Product_Name", Value.str "Laptop")],
         [("Product_Name", Value.str "Pen")]])).bind clean_dataset)
      1 = some (Value.str "nan") :=
  ⟨rfl, rfl⟩

set_option maxHeartbeats 1000000 in
/-- **C7** (amended).  When the category column is present in the input
dataset, category correction is idempotent: running the pipeline on the
output of the pipeline assigns the same category value to every row as a
single run (the substring matches recomputed on the cleaned product names
coincide with those of the first run).  The claim fails as stated only
when `Product_Category` is absent and created by enlargement, where a
rows-without-match category changes from missing to the string `"nan"`. -/
theorem C7_amended_idempotent_when_category_present (df : DataFrame)
    (hPN : "Product_Name" ∈ df.cols.map pyStrip)
    (hPC : "Product_Category" ∈ df.cols.map pyStrip)
    (k : Nat) :
    catAt ((clean_dataset df).bind clean_dataset) k = catAt (clean_dataset df) k := by
  have hPNfix : pyStrip "Product_Name" = "Product_Name" :=
    strip_fixed_of_mem_strip _ _ hPN
  have hPCfix : pyStrip "Product_Category" = "Product_Category" :=
    strip_fixed_of_mem_strip _ _ hPC
  have hPN2 : "Product_Name" ∈ (finalCols (df.cols.map pyStrip)).map pyStrip :=
    mem_strip_finalCols _ _ hPN hPNfix
  have hPC2 : "Product_Category" ∈ (finalCols (df.cols.map pyStrip)).map pyStrip :=
    mem_strip_finalCols _ _ hPC hPCfix
  rw [clean_dataset_eq df, if_pos hPN]
  show catAt (clean_dataset (DataFrame.mk (finalCols (df.cols.map pyStrip))
      (df.rows.map (cleanRowFun (df.cols.map pyStrip))))) k = _
  rw [clean_dataset_eq, if_pos hPN2]
  unfold catAt
  simp only [Option.some_bind, List.map_map, List.getElem?_map]
  cases hk : df.rows[k]? with
  | none => rfl
  | some r =>
    show some (Row.get (cleanRowFun ((finalCols (df.cols.map pyStrip)).map pyStrip)
        (cleanRowFun (df.cols.map pyStrip) r)) "Product_Category")
      = some (Row.get (cleanRowFun (df.cols.map pyStrip) r) "Product_Category")
    refine congrArg some ?_
    -- the per-row core: re-cleaning does not change the category cell
    have hkeys : keysStripped (cleanRowFun (df.cols.map pyStrip) r) :=
      keysStripped_cleanRowFun _ _
    have hself : stripKeysRow (cleanRowFun (df.cols.map pyStrip) r)
        = cleanRowFun (df.cols.map pyStrip) r :=
      stripKeysRow_eq_self _ hkeys
    have h_pn1 : Row.get (cleanRowFun (df.cols.map pyStrip) r) "Product_Name"
        = normalizeValue (Row.get (stripKeysRow r) "Product_Name") := by
      unfold cleanRowFun
      rw [get_qualityRow_ne _ _ "Product_Name" (by decide),
        get_preQuality_pn _ _ hPN]
    have h_pc1 : Row.get (cleanRowFun (df.cols.map pyStrip) r) "Product_Category"
        = match lastMatchCat (textRow (df.cols.map pyStrip) (stripKeysRow r)) with
          | some cat => Value.str cat
          | none => normalizeValue (Row.get (stripKeysRow r) "Product_Category") := by
      unfold cleanRowFun
      rw [get_qualityRow_ne _ _ "Product_Category" (by decide),
        get_preQuality_pc _ _ hPC]
    -- project the second run
    conv_lhs => rw [show cleanRowFun ((finalCols (df.cols.map pyStrip)).map pyStrip)
        (cleanRowFun (df.cols.map pyStrip) r)
      = qualityRow (colsAfterEmail ((finalCols (df.cols.map pyStrip)).map pyStrip))
          (preQualityRow ((finalCols (df.cols.map pyStrip)).map pyStrip)
            (cleanRowFun (df.cols.map pyStrip) r)) from rfl]
    rw [get_qualityRow_ne _ _ "Product_Category" (by decide),
      get_preQuality_pc _ _ hPC2, hself]
    -- the second-run masks agree with the first-run masks
    have hname2 : Row.get (textRow ((finalCols (df.cols.map pyStrip)).map pyStrip)
          (cleanRowFun (df.cols.map pyStrip) r)) "Product_Name"
        = Row.get (textRow (df.cols.map pyStrip) (stripKeysRow r)) "Product_Name" := by
      rw [get_textRow _ _ "Product_Name" (by decide), if_pos hPN2, h_pn1,
        get_textRow _ _ "Product_Name" (by decide), if_pos hPN]
      show Value.str (pyStrip (pyStrip
          (astypeStr (Row.get (stripKeysRow r) "Product_Name")))) = _
      rw [pyStrip_idem]
      rfl
    rw [lastMatchCat_congr _ _ hname2, h_pc1]
    cases hX : lastMatchCat (textRow (df.cols.map pyStrip) (stripKeysRow r)) with
    | some cat => rfl
    | none =>
      show normalizeValue (normalizeValue
          (Row.get (stripKeysRow r) "Product_Category")) = _
      show Value.str (pyStrip (pyStrip
          (astypeStr (Row.get (stripKeysRow r) "Product_Category")))) = _
      rw [pyStrip_idem]
      rfl

/-- Witness for C7 (amended) at a concrete dataset whose category column
is present. -/
theorem C7_witness :
    catAt ((clean_dataset (DataFrame.mk ["Product_Name", "Product_Category"]
        [[("Product_Name", Value.str "Laptop"), ("Product_Category", Value.str "Toys")],
         [("Product_Name", Value.str "Pen"), ("Product_Category", Value.na)]])).bind
        clean_dataset) 1
      = catAt (clean_dataset (DataFrame.mk ["Product_Name", "Product_Category"]
        [[("Product_Name", Value.str "Laptop"), ("Product_Category", Value.str "Toys")],
         [("Product_Name", Value.str "Pen"), ("Product_Category", Value.na)]])) 1 :=
  C7_amended_idempotent_when_category_present
    (DataFrame.mk ["Product_Name", "Product_Category"]
      [[("Product_Name", Value.str "Laptop"), ("Product_Category", Value.str "Toys")],
       [("Product_Name", Value.str "Pen"), ("Product_Category", Value.na)]])
    (by decide) (by decide) 1

/-- Witness for C9 on a one-cell heap. -/
theorem C9_witness :
    ([DataFrame.mk ["Product_Name"] [],
      DataFrame.mk ["Product_Name", "Product_Category", "Data_Quality_Issues"] []]
        : List DataFrame)[(0 : Nat)]?
      = ([DataFrame.mk ["Product_Name"] []] : List DataFrame)[(0 : Nat)]?
    ∧ (1 : Nat) ≠ 0
    ∧ ∃ df out,
        ([DataFrame.mk ["Product_Name"] []] : List DataFrame)[(0 : Nat)]? = some df
        ∧ clean_dataset df = some out
        ∧ ([DataFrame.mk ["Product_Name"] [],
            DataFrame.mk ["Product_Name", "Product_Category", "Data_Quality_Issues"] []]
              : List DataFrame)[(1 : Nat)]? = some out :=
  C9_original_unchanged [DataFrame.mk ["Product_Name"] []] 0
    [DataFrame.mk ["Product_Name"] [],
     DataFrame.mk ["Product_Name", "Product_Category", "Data_Quality_Issues"] []]
    1 rfl

end RetailClean
